import Mathlib

/-!
Startup sequence and root handler of `src/myapp/main.go`.

The program opens `./test.db`, runs `CREATE TABLE IF NOT EXISTS users (...)`,
inserts the literal `"John Doe"`, registers one handler on `"/"` and listens
on `:8080`.  Every error is handed to `log.Fatal`, which prints it and calls
`os.Exit(1)`.

The embedding is state passing.  The database file is a value of type `Store`;
calls into `database/sql` and `net/http` are functions on that value.  Whether
such a call reports an error for a reason outside the store (I/O, locking, a
busy port) is an input of the model, the fault argument of each call.  The
server side of `net/http` is modelled as far as it decides what a client
receives: which requests reach the registered handler, and what becomes of the
bytes the handler writes.
-/

namespace MyApp

/-! ## Data model -/

/-- A Go `error`, kept as its message. -/
abbrev Error := String

/-- One record of `users`: `"id" INTEGER NOT NULL PRIMARY KEY AUTOINCREMENT`
and `"name" TEXT`.  The name column carries no `NOT NULL`, so it may be
NULL (`none`). -/
structure Row where
  id : Int
  name : Option String
deriving DecidableEq, Repr

/-- The `users` table: its records in the order a full scan
(`SELECT name FROM users`) returns them, and the AUTOINCREMENT counter that
SQLite keeps for the table in `sqlite_sequence`. -/
structure Table where
  rows : List Row
  seq : Int
deriving DecidableEq, Repr

/-- Contents of `./test.db`.  `users = none` stands for a database without the
table; a file that does not exist yet is such a database, because the driver
creates it empty on first use. -/
structure Store where
  users : Option Table
deriving DecidableEq, Repr

/-- The store of a file that is absent when the program starts. -/
def freshStore : Store := { users := none }

/-- Records of the store, in scan order; none when the table is missing. -/
def Store.rows (db : Store) : List Row :=
  match db.users with
  | none => []
  | some t => t.rows

/-- Largest rowid SQLite can assign (`0x7fffffffffffffff`). -/
def maxRowid : Int := 9223372036854775807

/-- Largest rowid present in the table, `0` for an empty table. -/
def largestRowid (rows : List Row) : Int :=
  match rows.map Row.id with
  | [] => 0
  | i :: rest => rest.foldl max i

/-- Largest rowid the table has ever held. -/
def Table.lastRowid (t : Table) : Int :=
  max (largestRowid t.rows) t.seq

/-- Largest rowid the store's table has ever held, `0` when the table is
missing (it is then created empty before the first insert). -/
def Store.lastRowid (db : Store) : Int :=
  match db.users with
  | none => 0
  | some t => t.lastRowid

/-! ## Calls into `database/sql` -/

/-- Outcome of `sql.Open("sqlite3", "./test.db")`.  The call does not touch
the file. -/
def sqlOpen (fault : Option Error) : Except Error Unit :=
  match fault with
  | some e => .error e
  | none => .ok ()

/-- Outcome of `db.Exec(createTableSQL)`, the statement being
`CREATE TABLE IF NOT EXISTS users (...)`: an existing table is left alone, a
missing one is created empty.  A failing statement changes nothing. -/
def execCreateTable (fault : Option Error) (db : Store) : Except Error Store :=
  match fault with
  | some e => .error e
  | none =>
    match db.users with
    | some _ => .ok db
    | none => .ok { users := some { rows := [], seq := 0 } }

/-- Outcome of `db.Exec("INSERT INTO users (name) VALUES (?)", name)`.  The new
record gets the rowid after the largest one ever held and is last in scan
order; once the largest rowid has been used the statement fails. -/
def execInsert (fault : Option Error) (db : Store) (name : String) : Except Error Store :=
  match fault with
  | some e => .error e
  | none =>
    match db.users with
    | none => .error "no such table: users"
    | some t =>
      if maxRowid ≤ t.lastRowid then .error "database or disk is full"
      else .ok { users := some { rows := t.rows ++ [{ id := t.lastRowid + 1, name := some name }],
                                 seq := t.lastRowid + 1 } }

/-- Where the read fails for a reason outside the store: in `db.Query` itself,
or in a later `rows.Next()`, after `delivered` records have been handed out
(the statement is stepped lazily, so a lock or an I/O error shows there). -/
inductive ReadFault where
  | query (e : Error)
  | next (delivered : Nat) (e : Error)
deriving DecidableEq, Repr

/-- An `*sql.Rows`: the columns handed out before `rows.Next()` returns false,
and what `rows.Err()` holds from then on. -/
structure Rows where
  cols : List (Option String)
  err : Option Error
deriving DecidableEq, Repr

/-- Outcome of `db.Query("SELECT name FROM users")`: the store after the call
and either the error returned or the result set, the name column of every
record in scan order.  A result set whose iteration fails hands out the
records before the failure only. -/
def dbQuery (fault : Option ReadFault) (db : Store) : Store × Except Error Rows :=
  match fault, db.users with
  | some (.query e), _ => (db, .error e)
  | _, none => (db, .error "no such table: users")
  | some (.next k e), some t => (db, .ok { cols := (t.rows.map Row.name).take k, err := some e })
  | none, some t => (db, .ok { cols := t.rows.map Row.name, err := none })

/-- Result of `rows.Scan(&name)` for a `*string` destination: the new value of
the destination and the returned error.  NULL cannot be stored in a Go
`string`; the destination is then left as it was. -/
def scan (col : Option String) (dest : String) : String × Option Error :=
  match col with
  | some s => (s, none)
  | none => (dest, some "converting NULL to string is unsupported")

/-! ## `net/http` response writer -/

/-- The request as the server has read it.  `path` is the path of the request
target as the multiplexer compares it, `*` for the asterisk form. -/
structure Request where
  method : String
  path : String
  header : List (String × String)
  body : String
deriving DecidableEq, Repr

/-- State of an `http.ResponseWriter`: the status line once it has been
written, and the body bytes written so far. -/
structure ResponseWriter where
  status : Option Nat
  body : String
deriving DecidableEq, Repr

/-- The writer handed to a handler: nothing written yet. -/
def ResponseWriter.new : ResponseWriter := { status := none, body := "" }

/-- Result of `w.Write(p)`: the first write sends status 200 when no status has
been sent. -/
def ResponseWriter.write (w : ResponseWriter) (p : String) : ResponseWriter :=
  { status := some (w.status.getD 200), body := w.body ++ p }

/-- Result of `fmt.Fprintf(w, "User: %s\n", name)`. -/
def fprintfUser (w : ResponseWriter) (name : String) : ResponseWriter :=
  w.write ("User: " ++ name ++ "\n")

/-- What the client receives. -/
structure Response where
  status : Nat
  body : String
deriving DecidableEq, Repr

/-- The server finishing a request after the handler has returned: a handler
that wrote nothing yields status 200 and an empty body. -/
def finishRequest (w : ResponseWriter) : Response :=
  { status := w.status.getD 200, body := w.body }

/-! ## The root handler -/

/-- How a handler invocation ends: it returns, or `log.Fatal` ends the
process; either way with the writer as the handler left it. -/
inductive Outcome where
  | returned (w : ResponseWriter)
  | fatal (e : Error) (w : ResponseWriter)
deriving DecidableEq, Repr

/-- The loop `for rows.Next() { var name string; rows.Scan(&name);
fmt.Fprintf(w, "User: %s\n", name) }` over the columns the result set hands
out. -/
def handlerLoop : List (Option String) → ResponseWriter → ResponseWriter
  | [], w => w
  | col :: rest, w =>
    let name := ""
    let name := (scan col name).1
    handlerLoop rest (fprintfUser w name)

/-- The closure registered on `"/"`.  Returns the store as the calls it made
left it, together with the outcome.  Only the error of `db.Query` is looked
at; `rows.Err()` is never read and the result of `rows.Scan` is dropped. -/
def handler (readFault : Option ReadFault) (db : Store) (w : ResponseWriter) (_r : Request) :
    Store × Outcome :=
  match dbQuery readFault db with
  | (db1, .error e) => (db1, .fatal e w)
  | (db1, .ok rows) => (db1, .returned (handlerLoop rows.cols w))

/-- What serving one request amounts to: a response, a redirect sent by the
multiplexer (to the cleaned path; its status code is the library's choice), or
the exit of the process. -/
inductive Served where
  | response (r : Response)
  | redirect (location : String)
  | processExit (e : Error) (w : ResponseWriter)
deriving DecidableEq, Repr

/-- The handler invoked for a request on a new writer, and the response
finished from what it wrote unless the process is gone. -/
def serveHandler (readFault : Option ReadFault) (db : Store) (r : Request) : Store × Served :=
  match handler readFault db ResponseWriter.new r with
  | (db1, .returned w) => (db1, .response (finishRequest w))
  | (db1, .fatal e w) => (db1, .processExit e w)

/-! ## The `net/http` server in front of the handler -/

/-- Splits a path at each slash. -/
def splitSlash : List Char → List (List Char)
  | [] => [[]]
  | c :: cs =>
    match splitSlash cs with
    | [] => [[]]
    | seg :: segs => if c = '/' then [] :: seg :: segs else (c :: seg) :: segs

/-- Walks the elements of a rooted path: empty elements and `.` are dropped,
`..` removes the element kept last, if any.  `kept` is in reverse order. -/
def cleanSegments : List (List Char) → List (List Char) → List (List Char)
  | [], kept => kept.reverse
  | seg :: rest, kept =>
    if seg = [] ∨ seg = ['.'] then cleanSegments rest kept
    else if seg = ['.', '.'] then cleanSegments rest kept.tail
    else cleanSegments rest (seg :: kept)

/-- Result of `path.Clean` on a rooted path. -/
def pathClean (p : List Char) : List Char :=
  '/' :: List.intercalate ['/'] (cleanSegments (splitSlash p) [])

/-- Result of `cleanPath` of `net/http`: the path made rooted and cleaned, its
trailing slash kept. -/
def cleanPath (p : String) : String :=
  if p.data = [] then "/"
  else
    let q := if p.data.head? = some '/' then p.data else '/' :: p.data
    if q.getLast? = some '/' ∧ pathClean q ≠ ['/'] then String.mk (pathClean q ++ ['/'])
    else String.mk (pathClean q)

/-- Whether the server answers the request itself: `OPTIONS *`. -/
def isOptionsStar (r : Request) : Bool :=
  r.method == "OPTIONS" && r.path == "*"

/-- Whether the multiplexer answers with a redirect to the cleaned path: any
request but `CONNECT` whose path is not in cleaned form. -/
def needsRedirect (r : Request) : Bool :=
  r.method != "CONNECT" && cleanPath r.path != r.path

/-- Whether the request is passed to the handler registered on `"/"`, the
pattern that matches every path. -/
def reachesHandler (r : Request) : Bool :=
  !isOptionsStar r && !needsRedirect r

/-- The server handling one request, with `nil` as its handler and so the
default multiplexer: `OPTIONS *` is answered with an empty 200 and a path that
is not clean with a redirect, neither calling the handler; every other request
runs the handler, and for `HEAD` the body it writes is not sent. -/
def serve (readFault : Option ReadFault) (db : Store) (r : Request) : Store × Served :=
  if isOptionsStar r then (db, .response { status := 200, body := "" })
  else if needsRedirect r then (db, .redirect (cleanPath r.path))
  else
    match serveHandler readFault db r with
    | (db1, .response resp) =>
      (db1, .response (if r.method = "HEAD" then { status := resp.status, body := "" } else resp))
    | (db1, out) => (db1, out)

/-- Requests served one after the other by one process, each with its own
outcome of the read: the store left behind and what each request got, up to
and including the exit of the process. -/
def serveAll : List (Option ReadFault × Request) → Store → Store × List Served
  | [], db => (db, [])
  | (fault, req) :: rest, db =>
    match serve fault db req with
    | (db1, .processExit e w) => (db1, [.processExit e w])
    | (db1, out) => ((serveAll rest db1).1, out :: (serveAll rest db1).2)

/-! ## `main` -/

/-- Outcomes, for one run of the program, of the calls that can fail for
reasons outside the store. -/
structure Faults where
  openErr : Option Error
  createErr : Option Error
  insertErr : Option Error
  listenErr : Option Error
deriving DecidableEq, Repr

/-- A run in which no call fails for an outside reason. -/
def noFaults : Faults :=
  { openErr := none, createErr := none, insertErr := none, listenErr := none }

/-- The calls `main` makes. -/
inductive Call where
  | sqlOpen
  | execCreateTable
  | execInsert
  | handleFunc
  | println
  | listenAndServe
deriving DecidableEq, Repr

/-- A call that was made, and whether it returned without error. -/
structure Step where
  call : Call
  ok : Bool
deriving DecidableEq, Repr

/-- State at the end of the startup sequence (lines 14 to 34 of `main.go`):
the store, the calls made in order, and the error passed to `log.Fatal` if
one was. -/
structure Boot where
  store : Store
  trace : List Step
  err : Option Error
deriving DecidableEq, Repr

/-- The startup sequence: open, create the table, insert `"John Doe"`; each
`if err != nil { log.Fatal(err) }` ends the run. -/
def startup (env : Faults) (db : Store) : Boot :=
  match sqlOpen env.openErr with
  | .error e => { store := db, trace := [⟨.sqlOpen, false⟩], err := some e }
  | .ok () =>
    match execCreateTable env.createErr db with
    | .error e =>
      { store := db, trace := [⟨.sqlOpen, true⟩, ⟨.execCreateTable, false⟩], err := some e }
    | .ok db1 =>
      match execInsert env.insertErr db1 "John Doe" with
      | .error e =>
        { store := db1,
          trace := [⟨.sqlOpen, true⟩, ⟨.execCreateTable, true⟩, ⟨.execInsert, false⟩],
          err := some e }
      | .ok db2 =>
        { store := db2,
          trace := [⟨.sqlOpen, true⟩, ⟨.execCreateTable, true⟩, ⟨.execInsert, true⟩],
          err := none }

/-- State of the process once `main` has either exited or is blocked in
`http.ListenAndServe`. -/
structure Proc where
  store : Store
  trace : List Step
  handlerRegistered : Bool
  listening : Bool
  exit : Option Error
deriving DecidableEq, Repr

/-- The whole of `main`: the startup sequence, then `http.HandleFunc`,
`fmt.Println` and `log.Fatal(http.ListenAndServe(":8080", nil))`.  The deferred
`db.Close()` never runs: `main` does not return, and `log.Fatal` exits without
running deferred calls. -/
def main (env : Faults) (db : Store) : Proc :=
  let b := startup env db
  match b.err with
  | some e =>
    { store := b.store, trace := b.trace, handlerRegistered := false, listening := false,
      exit := some e }
  | none =>
    match env.listenErr with
    | some e =>
      { store := b.store,
        trace := b.trace ++ [⟨.handleFunc, true⟩, ⟨.println, true⟩, ⟨.listenAndServe, false⟩],
        handlerRegistered := true, listening := false, exit := some e }
    | none =>
      { store := b.store,
        trace := b.trace ++ [⟨.handleFunc, true⟩, ⟨.println, true⟩, ⟨.listenAndServe, true⟩],
        handlerRegistered := true, listening := true, exit := none }

/-- The program started once per element of the list, each run on the file the
previous one left; `none` as soon as a run ends in `log.Fatal` during
startup. -/
def startupTimes : List Faults → Store → Option Store
  | [], db => some db
  | env :: rest, db =>
    match (startup env db).err with
    | some _ => none
    | none => startupTimes rest (startup env db).store

/-! ## Vocabulary of the specification -/

/-- The text the handler prints for a record: the value of the Go variable
`name` after `rows.Scan(&name)`, which is the column text, and the empty
string for NULL. -/
def Row.text (r : Row) : String :=
  r.name.getD ""

/-- Splits a text at its newlines: the newline-terminated lines in order,
without their newline, and what follows the last newline. -/
def splitLines : List Char → List (List Char) × List Char
  | [] => ([], [])
  | c :: cs =>
    if c = '\n' then ([] :: (splitLines cs).1, (splitLines cs).2)
    else
      match (splitLines cs).1 with
      | [] => ([], c :: (splitLines cs).2)
      | l :: ls => ((c :: l) :: ls, (splitLines cs).2)

/-- The newline-terminated lines of a text. -/
def lines (s : String) : List String :=
  (splitLines s.data).1.map String.mk

/-- What a text holds after its last newline. -/
def unterminated (s : String) : String :=
  String.mk (splitLines s.data).2

/-- The request `GET /`. -/
def getRoot : Request := { method := "GET", path := "/", header := [], body := "" }

/-- The request `HEAD /`. -/
def headRoot : Request := { method := "HEAD", path := "/", header := [], body := "" }

/-- The store an absent file becomes by one run of the program. -/
def oneRunStore : Store :=
  { users := some { rows := [{ id := 1, name := some "John Doe" }], seq := 1 } }

/-- The store an absent file becomes by two runs of the program. -/
def twoRunStore : Store :=
  { users := some { rows := [{ id := 1, name := some "John Doe" },
                             { id := 2, name := some "John Doe" }], seq := 2 } }

/-- A store with a single record whose name spans two lines. -/
def twoLineNameStore : Store :=
  { users := some { rows := [{ id := 1, name := some "Ann\nLee" }], seq := 1 } }

/-! ## Lemmas on the handler -/

theorem scan_fst (col : Option String) : (scan col "").1 = col.getD "" := by
  cases col <;> rfl

theorem join_cons_eq (a : String) (l : List String) :
    String.join (a :: l) = a ++ String.join l := by
  apply String.ext
  simp [String.data_join]

theorem handlerLoop_body (cols : List (Option String)) (w : ResponseWriter) :
    (handlerLoop cols w).body
      = w.body ++ String.join (cols.map fun c => "User: " ++ c.getD "" ++ "\n") := by
  induction cols generalizing w with
  | nil =>
    apply String.ext
    simp [handlerLoop, String.data_join]
  | cons c rest ih =>
    rw [handlerLoop, ih, List.map_cons, join_cons_eq, scan_fst]
    apply String.ext
    simp [fprintfUser, ResponseWriter.write, List.append_assoc]

theorem handlerLoop_status (cols : List (Option String)) (w : ResponseWriter) :
    (handlerLoop cols w).status.getD 200 = w.status.getD 200 := by
  induction cols generalizing w with
  | nil => rfl
  | cons c rest ih =>
    rw [handlerLoop, ih]
    simp [fprintfUser, ResponseWriter.write]

theorem dbQuery_fst (fault : Option ReadFault) (db : Store) : (dbQuery fault db).1 = db := by
  rcases fault with _ | ⟨e⟩ | ⟨k, e⟩ <;> cases hu : db.users <;> simp [dbQuery, hu]

theorem dbQuery_none (db : Store) (t : Table) (hu : db.users = some t) :
    dbQuery none db = (db, .ok { cols := t.rows.map Row.name, err := none }) := by
  simp [dbQuery, hu]

theorem dbQuery_complete (fault : Option ReadFault) (db : Store) (cur : Rows)
    (h : (dbQuery fault db).2 = .ok cur) (hc : cur.err = none) :
    fault = none ∧ ∃ t, db.users = some t ∧ cur.cols = t.rows.map Row.name := by
  rcases fault with _ | ⟨e⟩ | ⟨k, e⟩ <;> cases hu : db.users <;>
    simp only [dbQuery, hu, Except.ok.injEq, reduceCtorEq] at h
  · subst h
    exact ⟨rfl, _, rfl, rfl⟩
  · subst h
    simp at hc

theorem serveHandler_ok (fault : Option ReadFault) (db : Store) (req : Request) (cur : Rows)
    (h : (dbQuery fault db).2 = .ok cur) (hc : cur.err = none) :
    serveHandler fault db req
      = (db, .response
          { status := 200
            body := String.join (db.rows.map fun r => "User: " ++ r.text ++ "\n") }) := by
  obtain ⟨rfl, t, ht, -⟩ := dbQuery_complete fault db cur h hc
  have hb := handlerLoop_body (t.rows.map Row.name) ResponseWriter.new
  have hs := handlerLoop_status (t.rows.map Row.name) ResponseWriter.new
  simp only [serveHandler, handler, dbQuery_none db t ht, finishRequest, hb, hs, Store.rows, ht]
  have h0 : ResponseWriter.new.body = "" := rfl
  have h1 : ResponseWriter.new.status.getD 200 = 200 := rfl
  rw [h0, h1, List.map_map]
  congr 3

theorem handler_fst (fault : Option ReadFault) (db : Store) (w : ResponseWriter)
    (req : Request) : (handler fault db w req).1 = db := by
  have h := dbQuery_fst fault db
  unfold handler
  cases hq : dbQuery fault db with
  | mk db1 res =>
    rw [hq] at h
    cases res <;> simpa using h

theorem serveHandler_fst (fault : Option ReadFault) (db : Store) (req : Request) :
    (serveHandler fault db req).1 = db := by
  have h := handler_fst fault db ResponseWriter.new req
  unfold serveHandler
  cases hq : handler fault db ResponseWriter.new req with
  | mk db1 out =>
    rw [hq] at h
    cases out <;> simpa using h

theorem serveHandler_fatal (fault : Option ReadFault) (db : Store) (req : Request) (e : Error)
    (h : (dbQuery fault db).2 = .error e) :
    serveHandler fault db req = (db, .processExit e { status := none, body := "" }) ∧
      ∀ w : ResponseWriter, handler fault db w req = (db, .fatal e w) := by
  have h1 := dbQuery_fst fault db
  cases hq : dbQuery fault db with
  | mk db1 res =>
    rw [hq] at h h1
    simp only at h h1
    subst h h1
    simp [serveHandler, handler, hq, ResponseWriter.new]

theorem serve_routed (fault : Option ReadFault) (db : Store) (req : Request)
    (hr : reachesHandler req = true) (hm : req.method ≠ "HEAD") :
    serve fault db req = serveHandler fault db req := by
  simp only [reachesHandler, Bool.and_eq_true, Bool.not_eq_true'] at hr
  unfold serve
  rw [hr.1, hr.2]
  simp only [Bool.false_eq_true, if_false, hm]
  cases hs : serveHandler fault db req with
  | mk db1 out => cases out <;> rfl

theorem serve_fst (fault : Option ReadFault) (db : Store) (req : Request) :
    (serve fault db req).1 = db := by
  have h := serveHandler_fst fault db req
  unfold serve
  split
  · rfl
  · split
    · rfl
    · cases hs : serveHandler fault db req with
      | mk db1 out =>
        rw [hs] at h
        cases out <;> simpa using h

theorem largestRowid_append_le (rows : List Row) (r : Row) :
    largestRowid (rows ++ [r]) ≤ max (largestRowid rows) r.id := by
  cases rows with
  | nil => simp [largestRowid]
  | cons a rest => simp [largestRowid, List.foldl_append]

theorem execCreateTable_rows (fault : Option Error) (db db1 : Store)
    (h : execCreateTable fault db = .ok db1) :
    fault = none ∧ db1.rows = db.rows ∧ db1.lastRowid = db.lastRowid ∧ ∃ t, db1.users = some t := by
  cases fault with
  | some e => simp [execCreateTable] at h
  | none =>
    cases hu : db.users with
    | none =>
      simp only [execCreateTable, hu, Except.ok.injEq] at h
      subst h
      simp [Store.rows, Store.lastRowid, hu, Table.lastRowid, largestRowid]
    | some t =>
      simp only [execCreateTable, hu, Except.ok.injEq] at h
      subst h
      simp [hu]

theorem execInsert_ok (fault : Option Error) (db db2 : Store) (name : String)
    (h : execInsert fault db name = .ok db2) :
    fault = none ∧ db.lastRowid < maxRowid ∧ (∃ t, db.users = some t) ∧
      db2 = { users := some { rows := db.rows ++ [{ id := db.lastRowid + 1, name := some name }],
                              seq := db.lastRowid + 1 } } := by
  cases fault with
  | some e => simp [execInsert] at h
  | none =>
    cases hu : db.users with
    | none => simp [execInsert, hu] at h
    | some t =>
      simp only [execInsert, hu] at h
      split at h
      · simp at h
      · rename_i hlt
        simp only [Except.ok.injEq] at h
        subst h
        simp only [Store.lastRowid, Store.rows, hu, true_and]
        exact ⟨lt_of_not_le hlt, ⟨t, rfl⟩, trivial⟩

theorem execInsert_succeeds (db : Store) (name : String) (t : Table) (hu : db.users = some t)
    (hlt : db.lastRowid < maxRowid) :
    execInsert none db name
      = .ok { users := some { rows := db.rows ++ [{ id := db.lastRowid + 1, name := some name }],
                              seq := db.lastRowid + 1 } } := by
  simp only [Store.lastRowid, hu] at hlt
  simp [execInsert, hu, Store.lastRowid, Store.rows, not_le.2 hlt]

theorem startup_success (env : Faults) (db : Store) (h : (startup env db).err = none) :
    env.openErr = none ∧ env.createErr = none ∧ env.insertErr = none ∧
      db.lastRowid < maxRowid ∧
      (startup env db).store
        = { users := some { rows := db.rows ++ [{ id := db.lastRowid + 1, name := some "John Doe" }],
                            seq := db.lastRowid + 1 } } ∧
      (startup env db).trace
        = [⟨.sqlOpen, true⟩, ⟨.execCreateTable, true⟩, ⟨.execInsert, true⟩] := by
  unfold startup at h ⊢
  cases ho : env.openErr with
  | some e => simp [ho, sqlOpen] at h
  | none =>
    simp only [ho, sqlOpen] at h ⊢
    cases hc : execCreateTable env.createErr db with
    | error e => simp [hc] at h
    | ok db1 =>
      simp only [hc] at h ⊢
      obtain ⟨hcf, hrows, hlast, -⟩ := execCreateTable_rows _ _ _ hc
      cases hi : execInsert env.insertErr db1 "John Doe" with
      | error e => simp [hi] at h
      | ok db2 =>
        obtain ⟨hif, hlt, -, hdb2⟩ := execInsert_ok _ _ _ _ hi
        rw [hrows, hlast] at hdb2
        rw [hlast] at hlt
        simp only [hi]
        exact ⟨trivial, hcf, hif, hlt, hdb2, trivial⟩

theorem startup_succeeds (env : Faults) (db : Store) (ho : env.openErr = none)
    (hc : env.createErr = none) (hi : env.insertErr = none) (hlt : db.lastRowid < maxRowid) :
    (startup env db).err = none := by
  have hcr : ∃ db1, execCreateTable none db = .ok db1 := by
    cases hu : db.users <;> simp [execCreateTable, hu]
  obtain ⟨db1, hdb1⟩ := hcr
  obtain ⟨-, -, hlast, t, ht⟩ := execCreateTable_rows _ _ _ hdb1
  have hins := execInsert_succeeds db1 "John Doe" t ht (hlast ▸ hlt)
  simp [startup, sqlOpen, ho, hc, hi, hdb1, hins]

theorem startup_fatal_rows (env : Faults) (db : Store) (e : Error)
    (h : (startup env db).err = some e) : (startup env db).store.rows = db.rows := by
  unfold startup at h ⊢
  cases ho : sqlOpen env.openErr with
  | error e1 => simp only
  | ok u =>
    simp only
    cases hc : execCreateTable env.createErr db with
    | error e1 => simp only
    | ok db1 =>
      simp only
      obtain ⟨-, hrows, -, -⟩ := execCreateTable_rows _ _ _ hc
      cases hi : execInsert env.insertErr db1 "John Doe" with
      | error e1 => simpa only using hrows
      | ok db2 => simp [ho, hc, hi] at h

theorem main_of_fatal (env : Faults) (db : Store) (e : Error)
    (h : (startup env db).err = some e) :
    main env db
      = { store := (startup env db).store, trace := (startup env db).trace,
          handlerRegistered := false, listening := false, exit := some e } := by
  simp [main, h]

theorem main_registered (env : Faults) (db : Store)
    (h : (main env db).handlerRegistered = true) :
    (startup env db).err = none ∧ (main env db).store = (startup env db).store := by
  cases he : (startup env db).err with
  | some e => simp [main, he] at h
  | none => cases hl : env.listenErr <;> simp [main, he, hl]

theorem join_map_text (rows : List Row) (names : List String)
    (h : rows.map Row.name = names.map some) :
    String.join (rows.map fun r => "User: " ++ r.text ++ "\n")
      = String.join (names.map fun n => "User: " ++ n ++ "\n") := by
  have ht : rows.map Row.text = names := by
    have h2 := congrArg (List.map fun o : Option String => o.getD "") h
    simpa [List.map_map, Function.comp_def, Row.text] using h2
  have h3 : (rows.map fun r => "User: " ++ r.text ++ "\n")
      = (rows.map Row.text).map fun n => "User: " ++ n ++ "\n" := by
    simp [List.map_map, Function.comp_def]
  rw [h3, ht]

/-! ## The handler -/

/-- C1: whenever the query succeeds (no error from `db.Query`, none while the
result set is read) the handler answers with status 200 and a body that is the
concatenation, in the order the store returns the records, of
`"User: " ++ name ++ "\n"` per record, `name` being the value of the Go
variable after `rows.Scan(&name)` (the column text; empty for a NULL column).
For a table holding the texts `names` this is the concatenation of
`"User: " ++ n ++ "\n"` over `names`, and for a table without records the
body is empty.  It is what the client receives for every request that is
passed to the handler with a method other than `HEAD`. -/
theorem handler_body_is_concatenation (fault : Option ReadFault) (db : Store) (req : Request)
    (cur : Rows) (h : (dbQuery fault db).2 = .ok cur) (hc : cur.err = none) :
    (serveHandler fault db req).2
        = .response
            { status := 200
              body := String.join (db.rows.map fun r => "User: " ++ r.text ++ "\n") } ∧
      (∀ names : List String, db.rows.map Row.name = names.map some →
        (serveHandler fault db req).2
          = .response
              { status := 200
                body := String.join (names.map fun n => "User: " ++ n ++ "\n") }) ∧
      (db.rows = [] → (serveHandler fault db req).2 = .response { status := 200, body := "" }) ∧
      (reachesHandler req = true → req.method ≠ "HEAD" →
        (serve fault db req).2
          = .response
              { status := 200
                body := String.join (db.rows.map fun r => "User: " ++ r.text ++ "\n") }) := by
  have hs := serveHandler_ok fault db req cur h hc
  refine ⟨by rw [hs], ?_, ?_, ?_⟩
  · intro names hn
    rw [hs, join_map_text db.rows names hn]
  · intro hnil
    rw [hs, hnil]
    rfl
  · intro hr hm
    rw [serve_routed fault db req hr hm, hs]

/-- Witness for C1: a table with two records, served on `GET /`. -/
theorem handler_body_is_concatenation_witness :
    (serve none
        { users := some { rows := [⟨1, some "John Doe"⟩, ⟨2, some "Ann"⟩], seq := 2 } }
        getRoot).2
      = .response { status := 200, body := "User: John Doe\nUser: Ann\n" } :=
  (handler_body_is_concatenation none
    { users := some { rows := [⟨1, some "John Doe"⟩, ⟨2, some "Ann"⟩], seq := 2 } }
    getRoot { cols := [some "John Doe", some "Ann"], err := none } rfl rfl).2.2.2
    (by decide) (by decide)

/-- C6, the code at the failing inputs.  An error of the read that shows in
`rows.Next()` is never looked at: with the database locked `GET /` is answered
200 with an empty body, and an I/O error after the first of two records gives
200 with the first line only; a NULL name, which `rows.Scan` refuses, is
printed as an empty name.  In none of these does the process exit, whereas the
same lock reported by `db.Query` itself ends it with nothing written. -/
theorem read_error_after_query_is_served :
    serve (some (.next 0 "database is locked")) oneRunStore getRoot
        = (oneRunStore, .response { status := 200, body := "" }) ∧
      serve (some (.next 1 "disk I/O error")) twoRunStore getRoot
        = (twoRunStore, .response { status := 200, body := "User: John Doe\n" }) ∧
      (serve none { users := some { rows := [⟨1, none⟩], seq := 1 } } getRoot).2
        = .response { status := 200, body := "User: \n" } ∧
      serve (some (.query "database is locked")) oneRunStore getRoot
        = (oneRunStore, .processExit "database is locked" { status := none, body := "" }) := by
  decide

/-- C9: creating the table is idempotent.  Without an outside failure the
statement always succeeds, and running it again on its own result succeeds and
gives that result back; whatever the outcomes, a second successful run changes
nothing after a first; and on a store that already has the table it succeeds
and leaves the store, hence the records, as they are. -/
theorem create_table_idempotent :
    (∀ db : Store, ∃ db1, execCreateTable none db = .ok db1 ∧
        execCreateTable none db1 = .ok db1) ∧
      (∀ (f1 f2 : Option Error) (db db1 db2 : Store),
        execCreateTable f1 db = .ok db1 → execCreateTable f2 db1 = .ok db2 → db2 = db1) ∧
      (∀ (db : Store) (t : Table), db.users = some t →
        execCreateTable none db = .ok db ∧
          ∀ db1, execCreateTable none db = .ok db1 → db1.rows = t.rows) := by
  refine ⟨?_, ?_, ?_⟩
  · intro db
    cases hu : db.users with
    | none =>
      exact ⟨{ users := some { rows := [], seq := 0 } }, by simp [execCreateTable, hu],
        by simp [execCreateTable]⟩
    | some t => exact ⟨db, by simp [execCreateTable, hu], by simp [execCreateTable, hu]⟩
  · intro f1 f2 db db1 db2 h1 h2
    obtain ⟨-, -, -, t, ht⟩ := execCreateTable_rows _ _ _ h1
    cases f2 with
    | some e => simp [execCreateTable] at h2
    | none =>
      simp only [execCreateTable, ht, Except.ok.injEq] at h2
      exact h2.symm
  · intro db t hu
    have h : execCreateTable none db = .ok db := by simp [execCreateTable, hu]
    refine ⟨h, ?_⟩
    intro db1 h1
    rw [h] at h1
    simp only [Except.ok.injEq] at h1
    subst h1
    simp [Store.rows, hu]

/-- Witness for C9: the statement run twice on the store left by one run of
the program. -/
theorem create_table_idempotent_witness :
    execCreateTable none { users := some { rows := [⟨1, some "John Doe"⟩], seq := 1 } }
      = .ok { users := some { rows := [⟨1, some "John Doe"⟩], seq := 1 } } :=
  (create_table_idempotent.2.2
    { users := some { rows := [⟨1, some "John Doe"⟩], seq := 1 } }
    { rows := [⟨1, some "John Doe"⟩], seq := 1 } rfl).1

/-- C3: on a store that already has the table with records `t.rows`, the
schema statement does not fail; a startup with no outside failure and an
unused rowid left succeeds; and every successful startup has run all three
statements without error and leaves exactly the old records, unchanged and in
their order, followed by one new record named `"John Doe"`: one record more
than before, whatever the old records were. -/
theorem restart_appends_one_row (env : Faults) (db : Store) (t : Table)
    (hu : db.users = some t) :
    execCreateTable none db = .ok db ∧
      (env.openErr = none → env.createErr = none → env.insertErr = none →
        t.lastRowid < maxRowid → (startup env db).err = none) ∧
      ((startup env db).err = none →
        (startup env db).trace
            = [⟨.sqlOpen, true⟩, ⟨.execCreateTable, true⟩, ⟨.execInsert, true⟩] ∧
          ∃ r : Row, r.name = some "John Doe" ∧
            (startup env db).store.rows = t.rows ++ [r] ∧
            (startup env db).store.rows.length = t.rows.length + 1) := by
  have hrows : db.rows = t.rows := by simp [Store.rows, hu]
  have hlast : db.lastRowid = t.lastRowid := by simp [Store.lastRowid, hu]
  refine ⟨by simp [execCreateTable, hu], ?_, ?_⟩
  · intro ho hc hi hlt
    exact startup_succeeds env db ho hc hi (hlast ▸ hlt)
  · intro h
    obtain ⟨-, -, -, -, hstore, htrace⟩ := startup_success env db h
    refine ⟨htrace, ⟨db.lastRowid + 1, some "John Doe"⟩, rfl, ?_, ?_⟩
    · rw [hstore, ← hrows]
      rfl
    · rw [hstore, ← hrows]
      simp [Store.rows]

/-- Witness for C3: a second run on a file that holds one `"John Doe"` and one
other record. -/
theorem restart_appends_one_row_witness :
    (startup noFaults
        { users := some { rows := [⟨1, some "John Doe"⟩, ⟨2, some "Ann"⟩], seq := 2 } }).err
      = none :=
  (restart_appends_one_row noFaults
    { users := some { rows := [⟨1, some "John Doe"⟩, ⟨2, some "Ann"⟩], seq := 2 } }
    { rows := [⟨1, some "John Doe"⟩, ⟨2, some "Ann"⟩], seq := 2 } rfl).2.1
    rfl rfl rfl (by decide)

/-- C4: whatever the store was (no table, an empty table, any records), a
startup sequence that completes without error leaves a record named
`"John Doe"` in the store; and whenever `main` has registered the handler,
the store it serves from holds such a record. -/
theorem startup_leaves_john_doe (env : Faults) (db : Store) :
    ((startup env db).err = none →
        ∃ r ∈ (startup env db).store.rows, r.name = some "John Doe") ∧
      ((main env db).handlerRegistered = true →
        ∃ r ∈ (main env db).store.rows, r.name = some "John Doe") := by
  have key : (startup env db).err = none →
      ∃ r ∈ (startup env db).store.rows, r.name = some "John Doe" := by
    intro h
    obtain ⟨-, -, -, -, hstore, -⟩ := startup_success env db h
    refine ⟨⟨db.lastRowid + 1, some "John Doe"⟩, ?_, rfl⟩
    rw [hstore]
    simp [Store.rows]
  refine ⟨key, ?_⟩
  intro h
  obtain ⟨herr, hst⟩ := main_registered env db h
  rw [hst]
  exact key herr

/-- Witness for C4: the first run on an absent file. -/
theorem startup_leaves_john_doe_witness :
    ∃ r ∈ (startup noFaults freshStore).store.rows, r.name = some "John Doe" :=
  (startup_leaves_john_doe noFaults freshStore).1 rfl

/-- C5: the startup sequence ends in `log.Fatal` exactly when one of its three
steps reports an error, which is exactly when the calls made include a failed
one.  A failed open is the only call made and leaves the store as it was; a
failed schema statement is preceded by the open only and leaves the store as
it was; a failed insert comes after the two successful calls and adds no
record.  In every failing case the records are those from before the run and
`main` exits with that error having made no further call: the handler is not
registered and the server does not listen. -/
theorem startup_fatal_iff_step_fails (env : Faults) (db : Store) :
    ((startup env db).err.isSome ↔
        (∃ e, sqlOpen env.openErr = .error e) ∨
        (∃ e, execCreateTable env.createErr db = .error e) ∨
        (∃ db1 e, execCreateTable env.createErr db = .ok db1 ∧
          execInsert env.insertErr db1 "John Doe" = .error e)) ∧
      ((startup env db).err.isSome ↔ ∃ s ∈ (startup env db).trace, s.ok = false) ∧
      (∀ e, sqlOpen env.openErr = .error e →
        startup env db = { store := db, trace := [⟨.sqlOpen, false⟩], err := some e }) ∧
      (∀ e, sqlOpen env.openErr = .ok () → execCreateTable env.createErr db = .error e →
        startup env db
          = { store := db, trace := [⟨.sqlOpen, true⟩, ⟨.execCreateTable, false⟩],
              err := some e }) ∧
      (∀ db1 e, sqlOpen env.openErr = .ok () → execCreateTable env.createErr db = .ok db1 →
        execInsert env.insertErr db1 "John Doe" = .error e →
        startup env db
          = { store := db1,
              trace := [⟨.sqlOpen, true⟩, ⟨.execCreateTable, true⟩, ⟨.execInsert, false⟩],
              err := some e }) ∧
      (∀ e, (startup env db).err = some e →
        (startup env db).store.rows = db.rows ∧
          main env db
            = { store := (startup env db).store, trace := (startup env db).trace,
                handlerRegistered := false, listening := false, exit := some e } ∧
          ∀ s ∈ (main env db).trace,
            s.call ≠ .handleFunc ∧ s.call ≠ .println ∧ s.call ≠ .listenAndServe) := by
  refine ⟨?_, ?_, ?_, ?_, ?_, ?_⟩
  · cases ho : sqlOpen env.openErr with
    | error e => simp [startup, ho]
    | ok u =>
      cases hc : execCreateTable env.createErr db with
      | error e => simp [startup, ho, hc]
      | ok db1 =>
        cases hi : execInsert env.insertErr db1 "John Doe" with
        | error e => simp [startup, ho, hc, hi]
        | ok db2 => simp [startup, ho, hc, hi]
  · cases ho : sqlOpen env.openErr with
    | error e => simp [startup, ho]
    | ok u =>
      cases hc : execCreateTable env.createErr db with
      | error e => simp [startup, ho, hc]
      | ok db1 =>
        cases hi : execInsert env.insertErr db1 "John Doe" with
        | error e => simp [startup, ho, hc, hi]
        | ok db2 => simp [startup, ho, hc, hi]
  · intro e ho
    simp [startup, ho]
  · intro e ho hc
    simp [startup, ho, hc]
  · intro db1 e ho hc hi
    simp [startup, ho, hc, hi]
  · intro e he
    have hm := main_of_fatal env db e he
    refine ⟨startup_fatal_rows env db e he, hm, ?_⟩
    rw [hm]
    simp only
    revert he
    cases ho : sqlOpen env.openErr with
    | error e1 => simp [startup, ho]
    | ok u =>
      cases hc : execCreateTable env.createErr db with
      | error e1 => simp [startup, ho, hc]
      | ok db1 =>
        cases hi : execInsert env.insertErr db1 "John Doe" with
        | error e1 => simp [startup, ho, hc, hi]
        | ok db2 => simp [startup, ho, hc, hi]

/-- Witness for C5: the schema statement fails on an absent file. -/
theorem startup_fatal_iff_step_fails_witness :
    startup { openErr := none, createErr := some "disk I/O error", insertErr := none,
              listenErr := none } freshStore
      = { store := freshStore, trace := [⟨.sqlOpen, true⟩, ⟨.execCreateTable, false⟩],
          err := some "disk I/O error" } :=
  (startup_fatal_iff_step_fails
    { openErr := none, createErr := some "disk I/O error", insertErr := none,
      listenErr := none } freshStore).2.2.2.1 "disk I/O error" rfl rfl

/-! ## Lemmas on lines and repeated runs -/

theorem serveHandler_response_eq (fault : Option ReadFault) (db : Store) (req : Request)
    (cur : Rows) (resp : Response) (h : (dbQuery fault db).2 = .ok cur) (hc : cur.err = none)
    (hresp : (serveHandler fault db req).2 = .response resp) :
    resp = { status := 200
             body := String.join (db.rows.map fun r => "User: " ++ r.text ++ "\n") } := by
  rw [serveHandler_ok fault db req cur h hc] at hresp
  simp only [Served.response.injEq] at hresp
  exact hresp.symm

theorem serve_getRoot (fault : Option ReadFault) (db : Store) :
    serve fault db getRoot = serveHandler fault db getRoot :=
  serve_routed fault db getRoot (by decide) (by decide)

theorem splitLines_line (l cs : List Char) (h : '\n' ∉ l) :
    splitLines (l ++ '\n' :: cs) = (l :: (splitLines cs).1, (splitLines cs).2) := by
  induction l with
  | nil => simp [splitLines]
  | cons c l ih =>
    have hc : c ≠ '\n' := fun hc => h (by simp [hc])
    have hl : '\n' ∉ l := fun hl => h (by simp [hl])
    simp [splitLines, hc, ih hl]

theorem splitLines_rows (rows : List Row) (h : ∀ r ∈ rows, '\n' ∉ r.text.data) :
    splitLines (String.join (rows.map fun r => "User: " ++ r.text ++ "\n")).data
      = (rows.map fun r => ("User: " ++ r.text).data, []) := by
  induction rows with
  | nil => simp [String.join, splitLines]
  | cons r rows ih =>
    have hr : '\n' ∉ ("User: " ++ r.text).data := by
      have h1 := h r (by simp)
      simp only [String.data_append, List.mem_append, not_or]
      exact ⟨by decide, h1⟩
    have ih1 := ih (fun x hx => h x (by simp [hx]))
    have hsplit := splitLines_line ("User: " ++ r.text).data
      (String.join (rows.map fun r => "User: " ++ r.text ++ "\n")).data hr
    rw [ih1] at hsplit
    rw [List.map_cons, join_cons_eq]
    have hd : ("User: " ++ r.text ++ "\n"
          ++ String.join (rows.map fun r => "User: " ++ r.text ++ "\n")).data
        = ("User: " ++ r.text).data
          ++ '\n' :: (String.join (rows.map fun r => "User: " ++ r.text ++ "\n")).data := by
      simp [String.data_append]
    rw [hd, hsplit]
    simp

theorem startup_store_users (env : Faults) (db : Store) (h : (startup env db).err = none) :
    (∃ t, (startup env db).store.users = some t) ∧
      (startup env db).store.rows.map Row.name
        = db.rows.map Row.name ++ [some "John Doe"] ∧
      (startup env db).store.lastRowid = db.lastRowid + 1 := by
  obtain ⟨-, -, -, -, hstore, -⟩ := startup_success env db h
  have hle : largestRowid db.rows ≤ db.lastRowid := by
    cases hu : db.users with
    | none => simp [Store.rows, Store.lastRowid, hu, largestRowid]
    | some t => simp [Store.rows, Store.lastRowid, hu, Table.lastRowid]
  rw [hstore]
  refine ⟨⟨_, rfl⟩, by simp [Store.rows], ?_⟩
  show max (largestRowid (db.rows ++ [⟨db.lastRowid + 1, some "John Doe"⟩]))
      (db.lastRowid + 1) = db.lastRowid + 1
  exact max_eq_right
    (le_trans (largestRowid_append_le _ _) (max_le (by show largestRowid db.rows ≤ db.lastRowid + 1; omega) le_rfl))

theorem startupTimes_names (envs : List Faults) (db db1 : Store)
    (h : startupTimes envs db = some db1) :
    db1.rows.map Row.name
        = db.rows.map Row.name ++ List.replicate envs.length (some "John Doe") ∧
      (envs ≠ [] → ∃ t, db1.users = some t) := by
  induction envs generalizing db with
  | nil =>
    simp only [startupTimes, Option.some.injEq] at h
    subst h
    simp
  | cons env rest ih =>
    cases he : (startup env db).err with
    | some e => simp [startupTimes, he] at h
    | none =>
      simp only [startupTimes, he] at h
      obtain ⟨hu, hnames, -⟩ := startup_store_users env db he
      obtain ⟨ih1, ih2⟩ := ih _ h
      refine ⟨?_, fun _ => ?_⟩
      · rw [ih1, hnames, List.length_cons, List.replicate_succ, List.append_assoc]
        rfl
      · cases rest with
        | nil =>
          simp only [startupTimes, Option.some.injEq] at h
          subst h
          exact hu
        | cons env2 rest2 => exact ih2 (by simp)

theorem startupTimes_succeeds (n : Nat) (db : Store) (h : db.lastRowid + n ≤ maxRowid) :
    ∃ db1, startupTimes (List.replicate n noFaults) db = some db1 := by
  induction n generalizing db with
  | zero => exact ⟨db, rfl⟩
  | succ n ih =>
    have hlt : db.lastRowid < maxRowid := by
      push_cast at h
      omega
    have he := startup_succeeds noFaults db rfl rfl rfl hlt
    obtain ⟨-, -, hlast⟩ := startup_store_users noFaults db he
    have h2 : (startup noFaults db).store.lastRowid + n ≤ maxRowid := by
      rw [hlast]
      push_cast at h
      omega
    obtain ⟨db1, hdb1⟩ := ih _ h2
    exact ⟨db1, by simp [List.replicate_succ, startupTimes, he, hdb1]⟩

/-! ## Repeated runs, lines, and the handler as a read -/

/-- C2: starting from an absent file, `n ≥ 1` runs of the startup sequence with
no outside failure all succeed as long as rowids are left (`n` at most the
largest rowid); and whenever `n ≥ 1` runs in succession have all succeeded,
`GET /` on the resulting store is answered with status 200 and the body
`"User: John Doe\n"` repeated `n` times. -/
theorem n_startups_give_n_lines :
    (∀ n : Nat, 1 ≤ n → (n : Int) ≤ maxRowid →
        ∃ db, startupTimes (List.replicate n noFaults) freshStore = some db) ∧
      (∀ (envs : List Faults) (db : Store), 1 ≤ envs.length →
        startupTimes envs freshStore = some db →
        (serve none db getRoot).2
          = .response
              { status := 200
                body := String.join (List.replicate envs.length "User: John Doe\n") }) := by
  refine ⟨?_, ?_⟩
  · intro n _ hn
    apply startupTimes_succeeds
    simpa [Store.lastRowid, freshStore] using hn
  · intro envs db hlen h
    obtain ⟨hnames, hu⟩ := startupTimes_names envs freshStore db h
    have hne : envs ≠ [] := by
      intro hnil
      rw [hnil] at hlen
      simp at hlen
    obtain ⟨t, ht⟩ := hu hne
    have hq : (dbQuery none db).2 = .ok { cols := t.rows.map Row.name, err := none } := by
      rw [dbQuery_none db t ht]
    rw [serve_getRoot, serveHandler_ok none db getRoot _ hq rfl]
    have hn2 : db.rows.map Row.name = (List.replicate envs.length "John Doe").map some := by
      rw [hnames]
      simp [Store.rows, freshStore]
    rw [join_map_text db.rows _ hn2, List.map_replicate]
    rfl

/-- Witness for C2: one run and two runs on an absent file, then `GET /`. -/
theorem n_startups_give_n_lines_witness :
    (serve none (startup noFaults freshStore).store getRoot).2
        = .response { status := 200, body := "User: John Doe\n" } ∧
      (serve none (startup noFaults (startup noFaults freshStore).store).store getRoot).2
        = .response { status := 200, body := "User: John Doe\nUser: John Doe\n" } :=
  ⟨n_startups_give_n_lines.2 [noFaults] (startup noFaults freshStore).store (by decide) rfl,
    n_startups_give_n_lines.2 [noFaults, noFaults]
      (startup noFaults (startup noFaults freshStore).store).store (by decide) rfl⟩

/-- C8 as stated fails: for the store whose single record is named
`"Ann\nLee"` the request succeeds with body `"User: Ann\nLee\n"`, which has
two newline-terminated lines, `"User: Ann"` and `"Lee"`, for one record. -/
theorem line_per_row_counterexample :
    (serve none twoLineNameStore getRoot).2
        = .response { status := 200, body := "User: Ann\nLee\n" } ∧
      twoLineNameStore.rows.length = 1 ∧
      lines "User: Ann\nLee\n" = ["User: Ann", "Lee"] ∧
      ¬ (lines "User: Ann\nLee\n").length = twoLineNameStore.rows.length ∧
      ¬ lines "User: Ann\nLee\n" = twoLineNameStore.rows.map fun r => "User: " ++ r.text := by
  decide

/-- C8, amended: for every store in which no record's name contains a newline,
the body of a successful response (the read completed without error) consists
of exactly as many newline-terminated lines as there are records, the line of
a record being `"User: "` followed by its name, with nothing after the last
newline; and for a store whose records are all named `"John Doe"` the body has
the line `"User: John Doe"` once per record and nothing else.  That response is
the one `GET /` receives. -/
theorem line_per_row (fault : Option ReadFault) (db : Store) (req : Request) (cur : Rows)
    (resp : Response) (hq : (dbQuery fault db).2 = .ok cur) (hc : cur.err = none)
    (h : (serveHandler fault db req).2 = .response resp) :
    ((∀ r ∈ db.rows, '\n' ∉ r.text.data) →
        lines resp.body = (db.rows.map fun r => "User: " ++ r.text) ∧
          (lines resp.body).length = db.rows.length ∧
          unterminated resp.body = "") ∧
      ((∀ r ∈ db.rows, r.name = some "John Doe") →
        lines resp.body = List.replicate db.rows.length "User: John Doe" ∧
          unterminated resp.body = "") ∧
      (serve fault db getRoot).2 = .response resp := by
  have hresp := serveHandler_response_eq fault db req cur resp hq hc h
  have key : (∀ r ∈ db.rows, '\n' ∉ r.text.data) →
      lines resp.body = (db.rows.map fun r => "User: " ++ r.text) ∧
        (lines resp.body).length = db.rows.length ∧
        unterminated resp.body = "" := by
    intro hnl
    have hsplit := splitLines_rows db.rows hnl
    have hl : lines resp.body = (db.rows.map fun r => "User: " ++ r.text) := by
      rw [hresp]
      simp only [lines, hsplit, List.map_map]
      rfl
    refine ⟨hl, ?_, ?_⟩
    · rw [hl, List.length_map]
    · rw [hresp]
      simp only [unterminated, hsplit]
  refine ⟨key, ?_, ?_⟩
  · intro hjd
    have htext : ∀ r ∈ db.rows, r.text = "John Doe" := by
      intro r hr
      simp [Row.text, hjd r hr]
    have hnl : ∀ r ∈ db.rows, '\n' ∉ r.text.data := by
      intro r hr
      rw [htext r hr]
      decide
    obtain ⟨hl, -, hu⟩ := key hnl
    refine ⟨?_, hu⟩
    rw [hl, List.eq_replicate_iff]
    refine ⟨by simp, ?_⟩
    intro b hb
    obtain ⟨r, hr, rfl⟩ := List.mem_map.1 hb
    rw [htext r hr]
    rfl
  · rw [serve_getRoot, serveHandler_ok fault db getRoot cur hq hc, hresp]

/-- Witness for the amended C8: two records on single lines. -/
theorem line_per_row_witness :
    lines "User: John Doe\nUser: Ann\n" = ["User: John Doe", "User: Ann"] ∧
      (lines "User: John Doe\nUser: Ann\n").length = 2 ∧
      unterminated "User: John Doe\nUser: Ann\n" = "" :=
  (line_per_row none
    { users := some { rows := [⟨1, some "John Doe"⟩, ⟨2, some "Ann"⟩], seq := 2 } }
    getRoot { cols := [some "John Doe", some "Ann"], err := none }
    { status := 200, body := "User: John Doe\nUser: Ann\n" } rfl rfl rfl).1 (by decide)

/-- C10 as stated fails: on the unmodified store left by one run, `GET /`
followed by `HEAD /` gets the listing and then an empty body; and `GET /`
while the database is locked followed by `GET /` gets an empty body and then
the listing. -/
theorem same_body_counterexample :
    serveAll [(none, getRoot), (none, headRoot)] oneRunStore
        = (oneRunStore,
            [.response { status := 200, body := "User: John Doe\n" },
             .response { status := 200, body := "" }]) ∧
      serveAll [(some (.next 0 "database is locked"), getRoot), (none, getRoot)] oneRunStore
        = (oneRunStore,
            [.response { status := 200, body := "" },
             .response { status := 200, body := "User: John Doe\n" }]) ∧
      ¬ (serve none oneRunStore getRoot).2 = (serve none oneRunStore headRoot).2 := by
  decide

/-- C10, amended: the handler only reads.  Serving a request, with whatever
outcome, leaves the store as it was, and so does any sequence of requests; any
number of consecutive requests that are passed to the handler with a method
other than `HEAD` and whose reads complete without error are all answered, and
all with the same response, the listing of that store.  A successful startup,
in contrast, leaves one record more than it found. -/
theorem handler_read_only :
    (∀ (fault : Option ReadFault) (db : Store) (req : Request),
        (serve fault db req).1 = db ∧ (serveHandler fault db req).1 = db ∧
          ∀ w : ResponseWriter, (handler fault db w req).1 = db) ∧
      (∀ (reqs : List (Option ReadFault × Request)) (db : Store), (serveAll reqs db).1 = db) ∧
      (∀ (reqs : List (Option ReadFault × Request)) (db : Store),
        (∀ fr ∈ reqs, reachesHandler fr.2 = true ∧ fr.2.method ≠ "HEAD" ∧
          ∃ cur : Rows, (dbQuery fr.1 db).2 = .ok cur ∧ cur.err = none) →
        (serveAll reqs db).2
          = List.replicate reqs.length
              (.response
                { status := 200
                  body := String.join (db.rows.map fun r => "User: " ++ r.text ++ "\n") })) ∧
      (∀ (env : Faults) (db : Store), (startup env db).err = none →
        (startup env db).store.rows.length = db.rows.length + 1) := by
  have hall : ∀ (reqs : List (Option ReadFault × Request)) (db : Store),
      (serveAll reqs db).1 = db := by
    intro reqs db
    induction reqs with
    | nil => rfl
    | cons fr rest ih =>
      obtain ⟨fault, req⟩ := fr
      have h1 := serve_fst fault db req
      cases hs : serve fault db req with
      | mk db1 out =>
        rw [hs] at h1
        simp only at h1
        subst h1
        cases out <;> simp [serveAll, hs, ih]
  refine ⟨?_, hall, ?_, ?_⟩
  · intro fault db req
    exact ⟨serve_fst fault db req, serveHandler_fst fault db req,
      fun w => handler_fst fault db w req⟩
  · intro reqs db
    induction reqs with
    | nil => intro _; rfl
    | cons fr rest ih =>
      intro hreqs
      obtain ⟨fault, req⟩ := fr
      obtain ⟨hr, hm, cur, hq, hc⟩ := hreqs (fault, req) (by simp)
      have hs : serve fault db req
          = (db, .response
              { status := 200
                body := String.join (db.rows.map fun r => "User: " ++ r.text ++ "\n") }) := by
        rw [serve_routed fault db req hr hm, serveHandler_ok fault db req cur hq hc]
      have ih1 := ih (fun fr hfr => hreqs fr (by simp [hfr]))
      simp only [serveAll, hs, ih1, List.length_cons, List.replicate_succ]
  · intro env db h
    have hn := congrArg List.length (startup_store_users env db h).2.1
    simpa using hn

/-- Witness for the amended C10: `GET /` and a `POST` in a row on the store
left by one run of the program. -/
theorem handler_read_only_witness :
    (serveAll
        [(none, getRoot), (none, { method := "POST", path := "/x", header := [], body := "y" })]
        oneRunStore).2
      = [.response { status := 200, body := "User: John Doe\n" },
         .response { status := 200, body := "User: John Doe\n" }] :=
  handler_read_only.2.2.1
    [(none, getRoot), (none, { method := "POST", path := "/x", header := [], body := "y" })]
    oneRunStore
    (by
      intro fr hfr
      simp only [List.mem_cons, List.mem_singleton, List.not_mem_nil, or_false] at hfr
      rcases hfr with rfl | rfl
      · exact ⟨by decide, by decide, _, rfl, rfl⟩
      · exact ⟨by decide, by decide, _, rfl, rfl⟩)

end MyApp
